import Mathlib

/-!
Shallow embedding of the portfolio application (single React source file).
The embedding models:
  * the Supabase project-repository hook: fetchProjects, addProject,
    updateProject, deleteProject (state transitions plus the requests each
    invocation sends to the hosted data service);
  * the debounce utility, as a function over a timeline of timed calls;
  * the Gemini description-drafting retry loop;
  * the identity/owner check and the manager-mode toggle;
  * tag derivation (allTags), tag toggling (handleTagClick) and
    project filtering (filteredProjects);
  * the one-time seeding effect for the initial example projects.
-/

namespace Portfolio

/-- A column-equality filter attached to a data-service request,
modelling a supabase .eq(column, value) call. -/
structure Filter where
  column : String
  value : String
deriving DecidableEq

/-- Form-level project fields, as assembled by ProjectForm:
title, description, technologies, githubUrl, liveDemoUrl, and an optional
id (updateProject defensively deletes the id key from its payload). -/
structure ProjectData where
  id : Option String
  title : String
  description : String
  technologies : String
  githubUrl : String
  liveDemoUrl : String
deriving DecidableEq

/-- A request sent to the hosted data service.  The insert carries the
spread project fields together with the injected owner_id column. -/
inductive Request where
  | select (table : String) (filters : List Filter) (orderColumn : String) (ascending : Bool)
  | insert (table : String) (row : ProjectData) (owner_id : String)
  | update (table : String) (fields : ProjectData) (filters : List Filter)
  | delete (table : String) (filters : List Filter)
deriving DecidableEq

/-- The filters attached to a request (none for an insert). -/
def Request.filters : Request → List Filter
  | .select _ fs _ _ => fs
  | .insert _ _ _ => []
  | .update _ _ fs => fs
  | .delete _ fs => fs

/-- Supabase table name used by the hook. -/
def TABLE_NAME : String := "projects"

/-- A row of the projects table as returned by the data service. -/
structure Row where
  id : String
  title : String
  description : String
  technologies : String
  githubUrl : String
  liveDemoUrl : String
  owner_id : String
  created_at : Nat
deriving DecidableEq

/-- An in-memory project, as produced by the fetch mapping
(id copied, row fields spread, created_at converted to createdAt). -/
structure Project where
  id : String
  title : String
  description : String
  technologies : String
  githubUrl : String
  liveDemoUrl : String
  owner_id : String
  createdAt : Nat
deriving DecidableEq

/-- The mapping applied to each fetched row. -/
def rowToProject (r : Row) : Project :=
  { id := r.id, title := r.title, description := r.description,
    technologies := r.technologies, githubUrl := r.githubUrl,
    liveDemoUrl := r.liveDemoUrl, owner_id := r.owner_id,
    createdAt := r.created_at }

/-- State held by the useProjects hook: projects, loading, error. -/
structure ProjState where
  projects : List Project
  loading : Bool
  error : Option String
deriving DecidableEq

/-- Error string set by every mutation when the supabase client is unset
or the user id is missing. -/
def notReadyErrorMsg : String := "Error: Supabase not ready or User ID missing."

/-- Error string set when the list query fails. -/
def fetchErrorMsg : String :=
  "Failed to load projects. Ensure the 'projects' table is created in Supabase."

/-- Error string set when the insert fails. -/
def addErrorMsg : String :=
  "Failed to add project. Ensure table and RLS policies are correct."

/-- Error string set when the update fails. -/
def updateErrorMsg : String := "Failed to save changes. Check RLS policies."

/-- Error string set when the delete fails. -/
def deleteErrorMsg : String := "Failed to delete project. Check RLS policies."

/-- fetchProjects: issues one select on the projects table filtered by
owner_id = userId and ordered by created_at descending.  On success the
project list is replaced by the mapped rows and the error is cleared; on
failure the error message is stored and the list is left untouched.
Either way loading ends and exactly the one query was issued. -/
def fetchProjects (userId : String) (st : ProjState)
    (svc : Except String (List Row)) : ProjState × List Request :=
  let req := Request.select TABLE_NAME [⟨"owner_id", userId⟩] "created_at" false
  match svc with
  | .ok data =>
      ({ projects := data.map rowToProject, loading := false, error := none }, [req])
  | .error _ =>
      ({ st with error := some fetchErrorMsg, loading := false }, [req])

/-- addProject: guarded by the supabase client being initialized and the
user id being present; otherwise sets the not-ready error and sends
nothing.  When the guard passes it inserts the spread project fields with
owner_id injected; a service error is converted to the add error string,
success clears the error. -/
def addProject (supabaseReady : Bool) (userId : Option String) (st : ProjState)
    (newProject : ProjectData) (svc : Except String Unit) : ProjState × List Request :=
  match supabaseReady, userId with
  | true, some uid =>
      let req := Request.insert TABLE_NAME newProject uid
      match svc with
      | .ok _ => ({ st with error := none }, [req])
      | .error _ => ({ st with error := some addErrorMsg }, [req])
  | _, _ => ({ st with error := some notReadyErrorMsg }, [])

/-- updateProject: same guard as addProject; strips the id key from the
payload and updates rows matching id = given id (and only that filter). -/
def updateProject (supabaseReady : Bool) (userId : Option String) (st : ProjState)
    (id : String) (updatedFields : ProjectData) (svc : Except String Unit) :
    ProjState × List Request :=
  match supabaseReady, userId with
  | true, some _ =>
      let fieldsToUpdate := { updatedFields with id := none }
      let req := Request.update TABLE_NAME fieldsToUpdate [⟨"id", id⟩]
      match svc with
      | .ok _ => ({ st with error := none }, [req])
      | .error _ => ({ st with error := some updateErrorMsg }, [req])
  | _, _ => ({ st with error := some notReadyErrorMsg }, [])

/-- deleteProject: same guard; deletes rows matching id = given id
(and only that filter). -/
def deleteProject (supabaseReady : Bool) (userId : Option String) (st : ProjState)
    (id : String) (svc : Except String Unit) : ProjState × List Request :=
  match supabaseReady, userId with
  | true, some _ =>
      let req := Request.delete TABLE_NAME [⟨"id", id⟩]
      match svc with
      | .ok _ => ({ st with error := none }, [req])
      | .error _ => ({ st with error := some deleteErrorMsg }, [req])
  | _, _ => ({ st with error := some notReadyErrorMsg }, [])

/-- Semantics of the debounce utility over a timeline of timed calls.
The source keeps one timeoutId: each call clears the pending timer and
schedules the wrapped function at its own time plus the delay, so a call
fires only when no later call arrives strictly before its scheduled
moment.  The result lists the executions of the underlying function:
each as (firing time, argument). -/
def debounceRun {α : Type} (delay : Nat) : List (Nat × α) → List (Nat × α)
  | [] => []
  | (t, a) :: rest =>
    match rest with
    | [] => [(t + delay, a)]
    | (t2, _) :: _ =>
        if t2 < t + delay then debounceRun delay rest
        else (t + delay, a) :: debounceRun delay rest

/-- Debounce window used when wrapping addProject in the hook result. -/
def ADD_DEBOUNCE_MS : Nat := 300

/-- Outcome of one fetch of the generation endpoint: a transport error or
non-ok HTTP status (both throw in the source), or a parsed response from
which the first candidate text was extracted (none when the path
candidates[0].content.parts[0].text is missing). -/
inductive ApiResponse where
  | failure
  | success (text : Option String)

/-- Result of one drafting invocation: the description handed to
setDescription (if any), the error shown (if any), the number of fetch
attempts made, and the backoff delays awaited between attempts. -/
structure GenResult where
  description : Option String
  error : Option String
  attempts : Nat
  delays : List Nat
deriving DecidableEq

/-- Maximum number of fetch attempts of the drafting loop. -/
def MAX_RETRIES : Nat := 3

/-- Base backoff delay of the drafting loop, in milliseconds. -/
def INITIAL_DELAY_MS : Nat := 1000

/-- Validation error when title or technologies is empty. -/
def validationErrorMsg : String := "Please fill in the Title and Technologies fields first."

/-- Error shown after the drafting loop exhausts its attempts. -/
def exhaustedErrorMsg : String := "Failed to generate description after multiple attempts."

/-- The text an attempt yields, if the attempt succeeds.  A throw (bad
status), a missing text path, or an empty text string (falsy in the
source condition) all make the attempt fail. -/
def attemptText : ApiResponse → Option String
  | .failure => none
  | .success none => none
  | .success (some t) => if t = "" then none else some t

/-- JS String.prototype.trim over the embedded strings: drops leading
and trailing whitespace characters.  Defined over the character list so
that it evaluates inside the kernel. -/
def jsTrim (s : String) : String :=
  ⟨((s.toList.dropWhile Char.isWhitespace).reverse.dropWhile Char.isWhitespace).reverse⟩

/-- The retry loop of generateProjectDescription, from a given attempt
number with the given fuel (the loop runs attempts 1..MAX_RETRIES, so it
is entered with fuel MAX_RETRIES).  On a successful attempt the trimmed
text becomes the description; on a failed final attempt the exhausted
error is set; otherwise the loop waits INITIAL_DELAY_MS * 2^(attempt-1)
and retries. -/
def genAttempts (responses : Nat → ApiResponse) : Nat → Nat → GenResult
  | _, 0 => { description := none, error := none, attempts := 0, delays := [] }
  | attempt, fuel + 1 =>
    match attemptText (responses attempt) with
    | some t => { description := some (jsTrim t), error := none, attempts := 1, delays := [] }
    | none =>
        if attempt = MAX_RETRIES then
          { description := none, error := some exhaustedErrorMsg, attempts := 1, delays := [] }
        else
          let r := genAttempts responses (attempt + 1) fuel
          { description := r.description, error := r.error, attempts := r.attempts + 1,
            delays := INITIAL_DELAY_MS * 2 ^ (attempt - 1) :: r.delays }

/-- generateProjectDescription: validates that title and technologies are
non-empty (else an immediate validation error with no attempt), then runs
the bounded retry loop against the given sequence of responses, where
responses n is the outcome of the n-th fetch attempt. -/
def generateProjectDescription (title technologies : String)
    (responses : Nat → ApiResponse) : GenResult :=
  if title = "" || technologies = "" then
    { description := none, error := some validationErrorMsg, attempts := 0, delays := [] }
  else genAttempts responses 1 MAX_RETRIES

/-- The owner check of useSupabaseAuth: isAppOwner becomes true exactly
when a VERCEL_OWNER_ID is configured and the resolved id equals it. -/
def ownerCheck (vercelOwnerId : Option String) (generatedId : String) : Bool :=
  match vercelOwnerId with
  | some o => generatedId = o
  | none => false

/-- canManage: authenticated readiness combined with app ownership. -/
def canManage (isAuthReady isAppOwner : Bool) : Bool := isAuthReady && isAppOwner

/-- UI state touched by the manager-mode toggle. -/
structure AppUIState where
  isManagerMode : Bool
  currentProject : Option Project
deriving DecidableEq

/-- Console warning emitted when a non-owner attempts the toggle. -/
def accessDeniedWarnMsg : String :=
  "Access Denied: Only the owner (as defined by VITE_APP_OWNER_ID) can access Manager Mode."

/-- handleToggleManager: when the viewer can manage, flips manager mode
and clears the editing state; otherwise leaves the state unchanged and
emits the access-denied warning. -/
def handleToggleManager (canMan : Bool) (st : AppUIState) : AppUIState × Option String :=
  if canMan then ({ isManagerMode := !st.isManagerMode, currentProject := none }, none)
  else (st, some accessDeniedWarnMsg)

/-- The owner-only manager panels render exactly when manager mode is on
and the viewer can manage. -/
def ownerPanelsRendered (isManagerMode canMan : Bool) : Bool := isManagerMode && canMan

/-- The tag tokens of one technologies string: split on commas, trimmed,
empty tokens dropped. -/
def tagTokens (s : String) : List String :=
  ((s.splitOn ",").map jsTrim).filter (fun t => t ≠ "")

/-- Insertion into the tag accumulator, modelling Set.add: a JS Set keeps
the first occurrence and ignores repeats. -/
def setAdd (l : List String) (t : String) : List String :=
  if t ∈ l then l else l ++ [t]

/-- allTags: collect every tag token of every project into a set, then
sort the resulting array, as in Array.from(tags).sort(). -/
def allTags (projects : List Project) : List String :=
  List.insertionSort (fun a b => a ≤ b)
    ((projects.flatMap (fun p => tagTokens p.technologies)).foldl setAdd [])

/-- handleTagClick: clicking the active tag clears the filter, clicking
any other tag makes it the (single) active tag. -/
def handleTagClick (activeTag : Option String) (tag : String) : Option String :=
  if activeTag = some tag then none else some tag

/-- Boolean prefix test on character lists. -/
def listIsPref : List Char → List Char → Bool
  | [], _ => true
  | _ :: _, [] => false
  | a :: as, b :: bs => a = b && listIsPref as bs

/-- Boolean substring test on character lists: the needle occurs as a
contiguous run of the haystack. -/
def listHasSub (needle : List Char) : List Char → Bool
  | [] => needle.isEmpty
  | b :: bs => listIsPref needle (b :: bs) || listHasSub needle bs

/-- JS String.prototype.includes, over the embedded strings. -/
def strIncludes (hay needle : String) : Bool :=
  listHasSub needle.toList hay.toList

/-- filteredProjects: no active tag shows every project; an active tag
keeps the projects whose lower-cased technologies text contains the
lower-cased tag. -/
def filteredProjects (projects : List Project) (activeTag : Option String) : List Project :=
  match activeTag with
  | none => projects
  | some tag =>
      projects.filter (fun p => strIncludes p.technologies.toLower tag.toLower)

/-- The fixed example project data seeded for a fresh owner. -/
def initialProjectsData : List ProjectData :=
  [ { id := none,
      title := "Movie Ticket Booking System",
      description := "Developed a robust ticketing platform featuring real-time seat availability, flexible show timing selection, and a secure booking workflow. This project highlights proficiency in full-stack web development, specifically managing transactional data integrity and delivering a highly responsive user experience. It serves as a foundational example of a high-utility, public-facing service.",
      technologies := "PHP, MySQL, JavaScript, HTML, CSS",
      githubUrl := "https://github.com/Ansen-2255/movie-booking-system",
      liveDemoUrl := "#" },
    { id := none,
      title := "Applicant Tracking System (ATS)",
      description := "Developed a complete Applicant Tracking System designed to streamline the recruitment process for businesses. The platform includes essential modules for posting job openings, managing candidate registration, facilitating secure resume uploads, and providing an administrative dashboard for full oversight. This project demonstrates strong backend data management capabilities and the creation of a multi-user, role-based web utility.",
      technologies := "HTML, PHP, MySQL",
      githubUrl := "https://github.com/Ansen-2255/ATS-Applicant-Tracking-System-",
      liveDemoUrl := "#" },
    { id := none,
      title := "Hangman App",
      description := "Developed a classic Hangman word-guessing game tailored for the Android platform. This mobile application utilizes Java and Android Studio to manage game state, user input, and dynamic UI rendering based on player attempts. The project showcases practical mobile development skills, user interface design, and state management within an activity lifecycle, and fundamental game logic implementation.",
      technologies := "Android Studio, Java, Mobile Development",
      githubUrl := "https://github.com/Ansen-2255/hangman-mobile-application",
      liveDemoUrl := "#" } ]

/-- Delay of the seeding timer, in milliseconds. -/
def SEED_DELAY_MS : Nat := 1500

/-- The seeding effect: bails out unless the viewer is the app owner,
loading has finished and the project list is empty; otherwise it starts a
timer and, when it fires, synchronously invokes the debounce-wrapped
addProject once per example project.  The result is that timeline of
invocations of the wrapped addProject: each at the timer firing instant,
carrying one example project. -/
def seedCalls (isAppOwner loading : Bool) (projects : List Project) :
    List (Nat × ProjectData) :=
  if !isAppOwner || loading || projects.length > 0 then []
  else if projects.length = 0 then
    initialProjectsData.map (fun p => (SEED_DELAY_MS, p))
  else []

/-- The inserts the seeding actually submits: the timeline of wrapped
calls run through the debounce semantics with the addProject window. -/
def seedExecutedInserts (isAppOwner loading : Bool) (projects : List Project) :
    List (Nat × ProjectData) :=
  debounceRun ADD_DEBOUNCE_MS (seedCalls isAppOwner loading projects)

/-- Empty repository state, as initialized by the hook before any load. -/
def emptyProjState : ProjState := { projects := [], loading := false, error := none }

/-- A sample loaded project used to instantiate theorems. -/
def sampleProject : Project :=
  { id := "p1", title := "T", description := "D", technologies := "React",
    githubUrl := "", liveDemoUrl := "", owner_id := "u1", createdAt := 0 }

/-- A repository state holding one previously loaded project. -/
def loadedProjState : ProjState :=
  { projects := [sampleProject], loading := false, error := none }

/-- Sample form fields used to instantiate theorems. -/
def sampleFields : ProjectData :=
  { id := some "p1", title := "T", description := "D", technologies := "React",
    githubUrl := "", liveDemoUrl := "" }

/- Helper lemmas. -/

theorem foldl_setAdd_nodup (ts : List String) :
    ∀ acc : List String, acc.Nodup → (ts.foldl setAdd acc).Nodup := by
  induction ts with
  | nil => intro acc h; simpa using h
  | cons t ts ih =>
    intro acc h
    simp only [List.foldl_cons]
    apply ih
    by_cases ht : t ∈ acc
    · simpa [setAdd, ht] using h
    · simp [setAdd, ht, List.nodup_append, h]

theorem foldl_setAdd_mem (ts : List String) :
    ∀ (acc : List String) (a : String), a ∈ ts.foldl setAdd acc ↔ a ∈ acc ∨ a ∈ ts := by
  induction ts with
  | nil => simp
  | cons t ts ih =>
    intro acc a
    simp only [List.foldl_cons, ih, List.mem_cons]
    by_cases ht : t ∈ acc
    · simp only [setAdd, ht, if_true]
      constructor
      · rintro (h | h)
        · exact Or.inl h
        · exact Or.inr (Or.inr h)
      · rintro (h | rfl | h)
        · exact Or.inl h
        · exact Or.inl ht
        · exact Or.inr h
    · simp only [setAdd, ht, if_false, List.mem_append, List.mem_singleton]
      tauto

theorem listIsPref_iff (n : List Char) :
    ∀ h : List Char, listIsPref n h = true ↔ ∃ t, h = n ++ t := by
  induction n with
  | nil => intro h; simp [listIsPref]
  | cons a as ih =>
    intro h
    cases h with
    | nil =>
      simp only [listIsPref, List.cons_append]
      constructor
      · intro hfalse; cases hfalse
      · rintro ⟨t, ht⟩; cases ht
    | cons b bs =>
      simp only [listIsPref, Bool.and_eq_true, decide_eq_true_eq, ih, List.cons_append]
      constructor
      · rintro ⟨rfl, t, rfl⟩; exact ⟨t, rfl⟩
      · rintro ⟨t, ht⟩
        injection ht with h1 h2
        exact ⟨h1.symm, t, h2⟩

theorem listHasSub_iff (n : List Char) :
    ∀ h : List Char, listHasSub n h = true ↔ ∃ pre suf, h = pre ++ n ++ suf := by
  intro h
  induction h with
  | nil =>
    simp only [listHasSub, List.isEmpty_iff]
    constructor
    · rintro rfl; exact ⟨[], [], rfl⟩
    · rintro ⟨pre, suf, heq⟩
      rcases List.append_eq_nil.mp (List.append_eq_nil.mp heq.symm).1 with ⟨-, h2⟩
      exact h2
  | cons b bs ih =>
    simp only [listHasSub, Bool.or_eq_true, listIsPref_iff, ih]
    constructor
    · rintro (⟨t, ht⟩ | ⟨pre, suf, heq⟩)
      · exact ⟨[], t, by simp [ht]⟩
      · exact ⟨b :: pre, suf, by simp [heq]⟩
    · rintro ⟨pre, suf, heq⟩
      cases pre with
      | nil => exact Or.inl ⟨suf, by simpa using heq⟩
      | cons c cs =>
        injection heq with h1 h2
        exact Or.inr ⟨cs, suf, by simp [h2]⟩

theorem strIncludes_iff (hay needle : String) :
    strIncludes hay needle = true ↔
      ∃ pre suf, hay.toList = pre ++ needle.toList ++ suf := by
  simpa [strIncludes] using listHasSub_iff needle.toList hay.toList

theorem genAttempts_attempts_le (responses : Nat → ApiResponse) :
    ∀ (fuel attempt : Nat), (genAttempts responses attempt fuel).attempts ≤ fuel := by
  intro fuel
  induction fuel with
  | zero => intro attempt; simp [genAttempts]
  | succ m ih =>
    intro attempt
    simp only [genAttempts]
    cases attemptText (responses attempt) with
    | some t => simp
    | none =>
      by_cases hm : attempt = MAX_RETRIES
      · simp [hm]
      · simpa [hm] using Nat.succ_le_succ (ih (attempt + 1))

/- Claim theorems. -/

/-- C1 counterexample: a concrete updateProject invocation with a ready
client and resolved identity u1 sends a request whose only filter is the
id equality; the owner_id equality filter the claim requires is not among
its filters. -/
theorem update_request_lacks_owner_filter :
    (updateProject true (some "u1") emptyProjState "p1" sampleFields (Except.ok ())).2 =
      [Request.update TABLE_NAME { sampleFields with id := none } [⟨"id", "p1"⟩]] ∧
    Filter.mk "owner_id" "u1" ∉
      (Request.update TABLE_NAME { sampleFields with id := none }
        [⟨"id", "p1"⟩]).filters := by
  refine ⟨rfl, ?_⟩
  simp [Request.filters]

/-- C1 amended: with a resolved identity, the list query carries the
owner_id equality filter and the insert injects owner_id = identity, but
update and delete requests are scoped only by the project id: no filter
of theirs mentions the owner_id column. -/
theorem request_owner_scoping (uid : String) (st : ProjState)
    (rows : Except String (List Row)) (p : ProjectData) (id : String)
    (flds : ProjectData) (svc : Except String Unit) :
    (fetchProjects uid st rows).2 =
        [Request.select TABLE_NAME [⟨"owner_id", uid⟩] "created_at" false] ∧
    (addProject true (some uid) st p svc).2 = [Request.insert TABLE_NAME p uid] ∧
    (updateProject true (some uid) st id flds svc).2 =
        [Request.update TABLE_NAME { flds with id := none } [⟨"id", id⟩]] ∧
    (deleteProject true (some uid) st id svc).2 =
        [Request.delete TABLE_NAME [⟨"id", id⟩]] ∧
    (∀ r ∈ (updateProject true (some uid) st id flds svc).2,
        ∀ f ∈ r.filters, f.column ≠ "owner_id") ∧
    (∀ r ∈ (deleteProject true (some uid) st id svc).2,
        ∀ f ∈ r.filters, f.column ≠ "owner_id") := by
  cases rows <;> cases svc <;>
    simp [fetchProjects, addProject, updateProject, deleteProject, Request.filters]

/-- C4 counterexample: a query failure in a state holding one previously
loaded project keeps that project in memory; the list is not left empty. -/
theorem fetch_failure_keeps_loaded_list :
    (fetchProjects "u1" loadedProjState (Except.error "boom")).1.projects =
      [sampleProject] ∧
    ([sampleProject] : List Project) ≠ [] := ⟨rfl, by simp⟩

/-- C4 amended: on a query failure the fetch error string is surfaced,
exactly one query was issued (no automatic retry), and the project list
is left unchanged, hence empty whenever nothing had been loaded. -/
theorem fetch_failure_behavior (uid : String) (st : ProjState) (e : String) :
    (fetchProjects uid st (Except.error e)).1.error = some fetchErrorMsg ∧
    (fetchProjects uid st (Except.error e)).1.projects = st.projects ∧
    (fetchProjects uid st (Except.error e)).2.length = 1 ∧
    (fetchProjects uid { st with projects := [] } (Except.error e)).1.projects = [] := by
  simp [fetchProjects]

/-- C6: when the supabase client is unset or the identity is unresolved,
every mutation returns with exactly the fixed not-ready error stored,
sends no request, and leaves the projects and loading fields untouched. -/
theorem mutations_noop_when_not_ready (sb : Bool) (uid : Option String)
    (st : ProjState) (p : ProjectData) (id : String) (flds : ProjectData)
    (svc : Except String Unit) (h : sb = false ∨ uid = none) :
    addProject sb uid st p svc = ({ st with error := some notReadyErrorMsg }, []) ∧
    updateProject sb uid st id flds svc =
      ({ st with error := some notReadyErrorMsg }, []) ∧
    deleteProject sb uid st id svc = ({ st with error := some notReadyErrorMsg }, []) := by
  rcases h with h | h
  · subst h; cases uid <;> simp [addProject, updateProject, deleteProject]
  · subst h; cases sb <;> simp [addProject, updateProject, deleteProject]

/-- C6 witness: with the client unset, addProject on the empty state
stores the not-ready error and sends nothing. -/
theorem mutations_noop_when_not_ready_witness :
    (false = false ∨ (some "u1" : Option String) = none) ∧
    addProject false (some "u1") emptyProjState sampleFields (Except.ok ()) =
      ({ emptyProjState with error := some notReadyErrorMsg }, []) :=
  ⟨Or.inl rfl,
    (mutations_noop_when_not_ready false (some "u1") emptyProjState sampleFields
      "p1" sampleFields (Except.ok ()) (Or.inl rfl)).1⟩

/-- C10: every successful repository operation, of any kind, resets the
stored error to none, clearing any error left by a failed operation. -/
theorem success_clears_error (uid : String) (st : ProjState) (rows : List Row)
    (p : ProjectData) (id : String) (flds : ProjectData) :
    (fetchProjects uid st (Except.ok rows)).1.error = none ∧
    (addProject true (some uid) st p (Except.ok ())).1.error = none ∧
    (updateProject true (some uid) st id flds (Except.ok ())).1.error = none ∧
    (deleteProject true (some uid) st id (Except.ok ())).1.error = none := by
  simp [fetchProjects, addProject, updateProject, deleteProject]

/-- C7: for any action timeline forming one burst (each call lands
strictly inside the window opened by its predecessor), the debounced
wrapper executes the underlying action exactly once: at the last call's
time plus the delay, with the last call's argument; every earlier call of
the burst is dropped. -/
theorem debounce_burst_executes_last {α : Type} (delay : Nat)
    (calls : List (Nat × α)) (t : Nat) (a : α)
    (hlast : calls.getLast? = some (t, a))
    (hburst : calls.Chain' (fun p q => q.1 < p.1 + delay)) :
    debounceRun delay calls = [(t + delay, a)] := by
  induction calls with
  | nil => simp at hlast
  | cons x rest ih =>
    cases rest with
    | nil =>
      simp only [List.getLast?_singleton, Option.some.injEq] at hlast
      subst hlast
      rfl
    | cons y rest2 =>
      rw [List.getLast?_cons_cons] at hlast
      rw [List.chain'_cons] at hburst
      have hstep : debounceRun delay (x :: y :: rest2) = debounceRun delay (y :: rest2) := by
        simp only [debounceRun, hburst.1, if_true]
      rw [hstep]
      exact ih hlast hburst.2

/-- C7 witness: three calls 100 ms apart under a 300 ms window execute
only the third, 300 ms after it. -/
theorem debounce_burst_executes_last_witness :
    ([((0 : Nat), (1 : Nat)), (100, 2), (200, 3)].getLast? = some (200, 3)) ∧
    debounceRun 300 [((0 : Nat), (1 : Nat)), (100, 2), (200, 3)] = [(500, 3)] :=
  ⟨rfl, debounce_burst_executes_last 300 [(0, 1), (100, 2), (200, 3)] 200 3 rfl
    (by norm_num [List.chain'_cons])⟩

/-- C2 (evaluation at the failing input): for the owner with loading done
and an empty list, the seeding invokes the debounce-wrapped addProject
once per example project, all at the timer instant, but the debounce
collapses the burst so that only the third example project is submitted
for insertion; and once any project exists the effect makes no calls. -/
theorem seeding_submits_only_last_example :
    seedCalls true false [] =
      [(SEED_DELAY_MS, initialProjectsData.get ⟨0, by simp [initialProjectsData]⟩),
       (SEED_DELAY_MS, initialProjectsData.get ⟨1, by simp [initialProjectsData]⟩),
       (SEED_DELAY_MS, initialProjectsData.get ⟨2, by simp [initialProjectsData]⟩)] ∧
    seedExecutedInserts true false [] =
      [(SEED_DELAY_MS + ADD_DEBOUNCE_MS,
        initialProjectsData.get ⟨2, by simp [initialProjectsData]⟩)] ∧
    (seedExecutedInserts true false []).length = 1 ∧
    seedCalls true false [sampleProject] = [] := ⟨rfl, rfl, rfl, rfl⟩

/-- C5: with a configured owner token, an identity equal to it passes the
owner check, so the toggle switches manager mode on (clearing the editing
state) with no warning and the owner-only panels render; a differing
identity fails the check, so the toggle leaves the state unchanged,
surfaces the access-denied message, and the panels do not render. -/
theorem manager_toggle_owner_gated (o uid : String) (cp : Option Project)
    (h : uid ≠ o) :
    (ownerCheck (some o) o = true ∧
      handleToggleManager (canManage true (ownerCheck (some o) o))
          ⟨false, cp⟩ = (⟨true, none⟩, none) ∧
      ownerPanelsRendered true (canManage true (ownerCheck (some o) o)) = true) ∧
    (ownerCheck (some o) uid = false ∧
      handleToggleManager (canManage true (ownerCheck (some o) uid))
          ⟨false, cp⟩ = (⟨false, cp⟩, some accessDeniedWarnMsg) ∧
      ownerPanelsRendered false (canManage true (ownerCheck (some o) uid)) = false) := by
  constructor
  · simp [ownerCheck, canManage, handleToggleManager, ownerPanelsRendered]
  · simp [ownerCheck, canManage, handleToggleManager, ownerPanelsRendered, h]

/-- C5 witness: the spec scenario with owner token abc123 and the
non-owner identity xyz: the toggle is refused with the access-denied
message. -/
theorem manager_toggle_owner_gated_witness :
    ("xyz" : String) ≠ "abc123" ∧
    handleToggleManager
        (canManage true (ownerCheck (some "abc123") "xyz")) ⟨false, none⟩ =
      (⟨false, none⟩, some accessDeniedWarnMsg) :=
  ⟨by decide, (manager_toggle_owner_gated "abc123" "xyz" none (by decide)).2.2.1⟩

/-- C3 counterexample: a drafting run whose first two attempts fail and
whose third response carries the text " x " displays the trimmed "x",
which differs from the third response's text. -/
theorem drafting_displays_trimmed_text :
    (generateProjectDescription "T" "React"
        (fun n => if n = 3 then ApiResponse.success (some " x ")
          else ApiResponse.failure)).description = some "x" ∧
    (some "x" : Option String) ≠ some " x " := ⟨rfl, by decide⟩

/-- C3 amended: for non-empty title and technologies, at most 3 attempts
are made; a response with missing candidate text fails its attempt; when
the first two attempts fail and the third yields text t, the displayed
description is t trimmed of surrounding whitespace, no error is shown,
and the waits between attempts were 1000 then 2000 ms (base delay
doubled); when all three attempts fail, the final error is surfaced. -/
theorem drafting_retry_policy (title tech : String) (responses : Nat → ApiResponse)
    (ht : title ≠ "") (htech : tech ≠ "") :
    (generateProjectDescription title tech responses).attempts ≤ MAX_RETRIES ∧
    attemptText (ApiResponse.success none) = none ∧
    (∀ t, attemptText (responses 1) = none → attemptText (responses 2) = none →
      attemptText (responses 3) = some t →
      generateProjectDescription title tech responses =
        { description := some (jsTrim t), error := none, attempts := 3,
          delays := [1000, 2000] }) ∧
    (attemptText (responses 1) = none → attemptText (responses 2) = none →
      attemptText (responses 3) = none →
      generateProjectDescription title tech responses =
        { description := none, error := some exhaustedErrorMsg, attempts := 3,
          delays := [1000, 2000] }) := by
  have hval : (decide (title = "") || decide (tech = "")) = false := by
    simp [ht, htech]
  refine ⟨?_, rfl, ?_, ?_⟩
  · simp only [generateProjectDescription, hval, Bool.false_eq_true, if_false]
    exact genAttempts_attempts_le responses MAX_RETRIES 1
  · intro t h1 h2 h3
    simp only [generateProjectDescription, hval, Bool.false_eq_true, if_false,
      MAX_RETRIES, genAttempts, h1, h2, h3]
    norm_num [INITIAL_DELAY_MS]
  · intro h1 h2 h3
    simp only [generateProjectDescription, hval, Bool.false_eq_true, if_false,
      MAX_RETRIES, genAttempts, h1, h2, h3]
    norm_num [INITIAL_DELAY_MS]

/-- C3 witness: with title T and technologies React and every attempt
failing, the run makes at most the maximum number of attempts. -/
theorem drafting_retry_policy_witness :
    ("T" : String) ≠ "" ∧
    (generateProjectDescription "T" "React"
        (fun _ => ApiResponse.failure)).attempts ≤ MAX_RETRIES :=
  ⟨by decide, (drafting_retry_policy "T" "React" (fun _ => ApiResponse.failure)
    (by decide) (by decide)).1⟩

/-- C8: the derived tag list is sorted, duplicate-free, and contains a
tag exactly when some project's technologies field yields it as a
non-empty trimmed comma token; consequently it is the same list for any
reordering of the projects. -/
theorem allTags_spec (projects projects2 : List Project)
    (hperm : projects.Perm projects2) :
    List.Sorted (fun a b => a ≤ b) (allTags projects) ∧
    (allTags projects).Nodup ∧
    (∀ t, t ∈ allTags projects ↔ ∃ p ∈ projects, t ∈ tagTokens p.technologies) ∧
    allTags projects = allTags projects2 := by
  have hsort : ∀ l : List Project, List.Sorted (fun a b => a ≤ b) (allTags l) :=
    fun l => List.sorted_insertionSort _ _
  have hnodup : ∀ l : List Project, (allTags l).Nodup := fun l =>
    ((List.perm_insertionSort _ _).nodup_iff).mpr
      (foldl_setAdd_nodup _ [] List.nodup_nil)
  have hmem : ∀ (l : List Project) (t : String),
      t ∈ allTags l ↔ ∃ p ∈ l, t ∈ tagTokens p.technologies := by
    intro l t
    rw [allTags, (List.perm_insertionSort _ _).mem_iff, foldl_setAdd_mem]
    simp [List.mem_flatMap]
  refine ⟨hsort projects, hnodup projects, hmem projects, ?_⟩
  refine List.eq_of_perm_of_sorted ?_ (hsort projects) (hsort projects2)
  refine (List.perm_ext_iff_of_nodup (hnodup projects) (hnodup projects2)).mpr ?_
  intro t
  rw [hmem, hmem]
  constructor
  · rintro ⟨p, hp, hi⟩; exact ⟨p, hperm.mem_iff.mp hp, hi⟩
  · rintro ⟨p, hp, hi⟩; exact ⟨p, hperm.mem_iff.mpr hp, hi⟩

/-- C8 witness: for the one-project list the derived tag list is
duplicate-free. -/
theorem allTags_spec_witness :
    ([sampleProject] : List Project).Perm [sampleProject] ∧
    (allTags [sampleProject]).Nodup :=
  ⟨List.Perm.refl _,
    (allTags_spec [sampleProject] [sampleProject] (List.Perm.refl _)).2.1⟩

/-- C9: from any state in which T is not already the active tag,
selecting T and selecting T again displays the unfiltered project list;
while T is active the displayed list holds exactly the projects whose
lower-cased technologies text contains the lower-cased T as a contiguous
substring; and after any click at most the clicked tag is active. -/
theorem tag_filter_spec (projects : List Project) (T : String)
    (a0 : Option String) (h : a0 ≠ some T) :
    filteredProjects projects (handleTagClick (handleTagClick a0 T) T) = projects ∧
    (∀ p, p ∈ filteredProjects projects (some T) ↔
        p ∈ projects ∧ ∃ pre suf,
          (p.technologies.toLower).toList = pre ++ (T.toLower).toList ++ suf) ∧
    (∀ (a : Option String) (t : String),
        handleTagClick a t = none ∨ handleTagClick a t = some t) := by
  refine ⟨?_, ?_, ?_⟩
  · have h1 : handleTagClick a0 T = some T := by simp [handleTagClick, h]
    rw [h1]
    simp [handleTagClick, filteredProjects]
  · intro p
    simp only [filteredProjects, List.mem_filter, strIncludes_iff]
  · intro a t
    by_cases hat : a = some t
    · exact Or.inl (by simp [handleTagClick, hat])
    · exact Or.inr (by simp [handleTagClick, hat])

/-- C9 witness: with no active tag, clicking React twice over the sample
list displays the original list. -/
theorem tag_filter_spec_witness :
    ((none : Option String) ≠ some "React") ∧
    filteredProjects [sampleProject]
        (handleTagClick (handleTagClick none "React") "React") = [sampleProject] :=
  ⟨by decide, (tag_filter_spec [sampleProject] "React" none (by decide)).1⟩

end Portfolio
